import Mathlib

/-
Shallow embedding of the 3DCloud repository:
  - generateCloudSpheres / computeBoundingSphere (src/main.cpp)
  - Perlin noise texture generation (src/Noise.cpp)
  - the fragment shader ray marcher (Shader/fragment_shader.glsl)
Floating point arithmetic is modelled over the reals; the C library rand
is modelled as an unspecified deterministic stream indexed by seed and
call number; the random draws consumed by the cloud generator are passed
in explicitly as parameters.
-/

noncomputable section

namespace CloudRM

/-- glm vec3, modelled with real components. -/
structure Vec3 where
  x : ℝ
  y : ℝ
  z : ℝ

instance : Add Vec3 := ⟨fun a b => ⟨a.x + b.x, a.y + b.y, a.z + b.z⟩⟩

instance : Sub Vec3 := ⟨fun a b => ⟨a.x - b.x, a.y - b.y, a.z - b.z⟩⟩

instance : SMul ℝ Vec3 := ⟨fun t v => ⟨t * v.x, t * v.y, t * v.z⟩⟩

/-- glm dot product. -/
def dot3 (a b : Vec3) : ℝ := a.x * b.x + a.y * b.y + a.z * b.z

/-- glm length. -/
def norm3 (v : Vec3) : ℝ := Real.sqrt (v.x ^ 2 + v.y ^ 2 + v.z ^ 2)

/-- Sphere with a center and radius (main.cpp). -/
structure Sphere where
  center : Vec3
  radius : ℝ

/-- The random draws consumed for one non-base sphere of
generateCloudSpheres: the two raw Gaussian position draws, the uniform
draw for the base height, and the Beta-from-Gamma ratio draw. -/
structure Draw where
  gx : ℝ
  gz : ℝ
  u : ℝ
  br : ℝ

/-- x = max(0, min(L, gaussX(gen))) in generateCloudSpheres. -/
def drawX (L : ℝ) (d : Draw) : ℝ := max 0 (min L d.gx)

/-- z = max(0, min(L, gaussZ(gen))) in generateCloudSpheres. -/
def drawZ (L : ℝ) (d : Draw) : ℝ := max 0 (min L d.gz)

/-- y_base = randf() * delta in generateCloudSpheres. -/
def drawYBase (delta : ℝ) (d : Draw) : ℝ := d.u * delta

/-- d_max = min(min(dx_, dz_), max_radius_y) in generateCloudSpheres. -/
def cloudDMax (L delta : ℝ) (d : Draw) : ℝ :=
  min (min (min (drawX L d) (L - drawX L d)) (min (drawZ L d) (L - drawZ L d)))
      ((L - drawYBase delta d) * 0.5)

/-- min_radius = max(0.05f*L, base_radius*0.2f) in generateCloudSpheres. -/
def cloudMinRadius (L baseRadius : ℝ) : ℝ := max (0.05 * L) (baseRadius * 0.2)

/-- max_radius = min(d_max, 0.5f*L) in generateCloudSpheres. -/
def cloudMaxRadius (L delta : ℝ) (d : Draw) : ℝ := min (cloudDMax L delta d) (0.5 * L)

/-- radius = min_radius + br*(max_radius - min_radius) in generateCloudSpheres. -/
def cloudRadius (L delta baseRadius : ℝ) (d : Draw) : ℝ :=
  cloudMinRadius L baseRadius + d.br * (cloudMaxRadius L delta d - cloudMinRadius L baseRadius)

/-- One non-base sphere of generateCloudSpheres, as a function of its draws. -/
def mkCloudSphere (L delta baseRadius : ℝ) (d : Draw) : Sphere :=
  ⟨⟨drawX L d, drawYBase delta d + cloudRadius L delta baseRadius d, drawZ L d⟩,
   cloudRadius L delta baseRadius d⟩

/-- The base sphere of generateCloudSpheres; u0 is the uniform draw for
base_y, delta = L * delta_ratio, baseRadRat = base_radius_ratio. -/
def baseSphere (L delta baseRadRat : ℝ) (u0 : ℝ) : Sphere :=
  let base_y := u0 * (delta / 2)
  let dx := L / 2
  let dz := L / 2
  let max_base_radius := min (min dx dz) ((L - base_y) * 0.5)
  let base_radius := min (L * baseRadRat) max_base_radius
  ⟨⟨L / 2, base_y + base_radius, L / 2⟩, base_radius⟩

/-- generateCloudSpheres (main.cpp), contents only: the unconditional base
sphere followed by the loop for i in [0, N-1); deltaRat, sigmaRat, alpha,
beta, baseRadRat are the delta_ratio, sigma_ratio, alpha, beta,
base_radius_ratio parameters (sigmaRat, alpha, beta only shape the
distributions, which are abstracted into the explicit draw stream). The
spheres.reserve(N) call does not affect the list contents for N at least 0;
its failure for negative N is modelled by generateCloudSpheresChecked. -/
def generateCloudSpheres (L : ℝ) (N : ℤ) (deltaRat sigmaRat alpha beta baseRadRat : ℝ)
    (u0 : ℝ) (draws : ℕ → Draw) : List Sphere :=
  let delta := L * deltaRat
  let base := baseSphere L delta baseRadRat u0
  base :: (List.range (N - 1).toNat).map (fun i => mkCloudSphere L delta base.radius (draws i))

/-- The exception thrown by std::vector::reserve when its argument exceeds
max_size, as happens when the negative int N converts to a huge size_t. -/
inductive VecError where
  | lengthError

/-- generateCloudSpheres (main.cpp) including the spheres.reserve(N) call:
for negative N the reserve argument converts to a huge size_t and the call
throws std::length_error before any sphere is pushed, so nothing is
returned; otherwise the sphere list is built as in generateCloudSpheres. -/
def generateCloudSpheresChecked (L : ℝ) (N : ℤ)
    (deltaRat sigmaRat alpha beta baseRadRat : ℝ) (u0 : ℝ) (draws : ℕ → Draw) :
    Except VecError (List Sphere) :=
  if N < 0 then Except.error VecError.lengthError
  else Except.ok (generateCloudSpheres L N deltaRat sigmaRat alpha beta baseRadRat u0 draws)

/-- The per-component minimum update if(c[k] - s.radius < minP[k]) of
computeBoundingSphere. -/
def extMin (m c r : ℝ) : ℝ := if c - r < m then c - r else m

/-- The per-component maximum update if(c[k] + s.radius > maxP[k]) of
computeBoundingSphere. -/
def extMax (m c r : ℝ) : ℝ := if c + r > m then c + r else m

/-- computeBoundingSphere (main.cpp): extrema folds seeded with the
sentinels plus-minus 1e9, center at the extremal box midpoint, radius the
maximum over spheres of distance-to-center plus sphere radius. -/
def computeBoundingSphere (spheres : List Sphere) : Sphere :=
  let minP := spheres.foldl
    (fun m s => ⟨extMin m.x s.center.x s.radius, extMin m.y s.center.y s.radius,
                 extMin m.z s.center.z s.radius⟩) (⟨1e9, 1e9, 1e9⟩ : Vec3)
  let maxP := spheres.foldl
    (fun m s => ⟨extMax m.x s.center.x s.radius, extMax m.y s.center.y s.radius,
                 extMax m.z s.center.z s.radius⟩) (⟨-1e9, -1e9, -1e9⟩ : Vec3)
  let center := (0.5 : ℝ) • (minP + maxP)
  let radius := spheres.foldl
    (fun r s => if norm3 (s.center - center) + s.radius > r
                then norm3 (s.center - center) + s.radius else r) 0
  ⟨center, radius⟩

/-- State of the C library pseudo-random generator: the last srand seed and
the number of rand calls made since. The actual output values are supplied
by an unspecified deterministic stream randFn (seed, call index) so that
rand() is a deterministic function of the seed sequence, as the C standard
guarantees, without committing to one libc implementation. -/
structure CRand where
  seed : ℕ
  idx : ℕ

/-- srand(seed) resets the rand state. -/
def srandFn (s : ℕ) : CRand := ⟨s, 0⟩

/-- rand(): next value of the stream and the advanced state. -/
def randNext (randFn : ℕ → ℕ → ℕ) (st : CRand) : ℕ × CRand :=
  (randFn st.seed st.idx, ⟨st.seed, st.idx + 1⟩)

/-- The process-global state mutated by Noise.cpp: the 512-entry table p
(modelled as a function from index to value) and the C rand state. -/
structure NoiseGlobals where
  p : ℕ → ℕ
  rnd : CRand

/-- std::swap(permutation[i], permutation[j]) on the functional view of the
permutation vector. -/
def swapFn (f : ℕ → ℕ) (i j : ℕ) : ℕ → ℕ :=
  fun k => if k = i then f j else if k = j then f i else f k

/-- The Fisher-Yates loop of initPermutation: for i from 255 down to 1,
j := rand() % (i+1), swap entries i and j. The first argument is the
current loop index i (counting down). -/
def fyLoop (randFn : ℕ → ℕ → ℕ) : ℕ → CRand → (ℕ → ℕ) → CRand × (ℕ → ℕ)
  | 0, st, perm => (st, perm)
  | i + 1, st, perm =>
    let rs := randNext randFn st
    let j := rs.1 % (i + 2)
    fyLoop randFn i rs.2 (swapFn perm (i + 1) j)

/-- initPermutation (Noise.cpp): fills permutation with 0..255, reseeds the
C rand state with srand(seed), shuffles, and writes the duplicated table
p[i] = p[i+256] = permutation[i]. The incoming globals are entirely
overwritten. -/
def initPermutation (randFn : ℕ → ℕ → ℕ) (_g : NoiseGlobals) (seed : ℕ) : NoiseGlobals :=
  let perm0 : ℕ → ℕ := fun i => i
  let st0 := srandFn seed
  let res := fyLoop randFn 255 st0 perm0
  ⟨fun k => if k < 256 then res.2 k else res.2 (k - 256), res.1⟩

/-- fade (Noise.cpp): the quintic smoothing curve. -/
def fade (t : ℝ) : ℝ := t * t * t * (t * (t * 6 - 15) + 10)

/-- lerp (Noise.cpp). -/
def lerp (t a b : ℝ) : ℝ := a + t * (b - a)

/-- grad (Noise.cpp): hash & 7 selects one of 8 gradients; the C bit tests
hash & 1 and hash & 2 are h % 2 = 1 and h / 2 % 2 = 1 on naturals. -/
def grad (hash : ℕ) (x y : ℝ) : ℝ :=
  let h := hash % 8
  let u := if h < 4 then x else y
  let v := if h < 4 then y else x
  (if h % 2 = 1 then -u else u) + (if h / 2 % 2 = 1 then -v else v)

/-- perlin (Noise.cpp). The C expression (int)floor(x) & 255 equals the
low 8 bits of the two-complement value, which is floor(x) mod 256 as a
nonnegative integer. -/
def perlin (p : ℕ → ℕ) (x y : ℝ) : ℝ :=
  let X := ((⌊x⌋ : ℤ) % 256).toNat
  let Y := ((⌊y⌋ : ℤ) % 256).toNat
  let xf := x - ⌊x⌋
  let yf := y - ⌊y⌋
  let u := fade xf
  let v := fade yf
  let A := p X + Y
  let B := p (X + 1) + Y
  lerp v (lerp u (grad (p A) xf yf) (grad (p B) (xf - 1) yf))
         (lerp u (grad (p (A + 1)) xf (yf - 1)) (grad (p (B + 1)) (xf - 1) (yf - 1)))

/-- The six indices with which perlin reads the table p, in evaluation
order: p[X], p[X+1] (through A and B), p[A], p[A+1], p[B], p[B+1]. -/
def perlinIndices (p : ℕ → ℕ) (x y : ℝ) : List ℕ :=
  let X := ((⌊x⌋ : ℤ) % 256).toNat
  let Y := ((⌊y⌋ : ℤ) % 256).toNat
  let A := p X + Y
  let B := p (X + 1) + Y
  [X, X + 1, A, A + 1, B, B + 1]

/-- One output byte of generatePerlinNoiseTexture at pixel (i, j):
normalized coordinates scaled by frequency 8, noise mapped from [-1,1] to
[0,1], clamped, then quantized by truncation to 0..255. -/
def noiseByte (p : ℕ → ℕ) (width height i j : ℕ) : ℕ :=
  let x := (i : ℝ) / (width : ℝ)
  let y := (j : ℝ) / (height : ℝ)
  let noiseValue := perlin p (x * 8) (y * 8)
  let mapped := (noiseValue + 1) / 2
  let clamped := min (max mapped 0) 1
  (⌊clamped * 255⌋).toNat

/-- Noise::generatePerlinNoiseTexture (Noise.cpp): reinitializes the global
permutation table from the seed, then fills the row-major grid
textureData[j*width + i]. Returns the new globals and the grid. -/
def generatePerlinNoiseTexture (randFn : ℕ → ℕ → ℕ) (g : NoiseGlobals)
    (width height seed : ℕ) : NoiseGlobals × List ℕ :=
  let g1 := initPermutation randFn g seed
  (g1, (List.range height).flatMap (fun j =>
        (List.range width).map (fun i => noiseByte g1.p width height i j)))

/-- glm or GLSL vec4 output color. -/
structure Vec4 where
  x : ℝ
  y : ℝ
  z : ℝ
  w : ℝ

/-- GLSL normalize. -/
def normalize3 (v : Vec3) : Vec3 := (1 / norm3 v) • v

/-- The frame-constant inputs of the fragment shader: the bounding sphere
uniforms, the sphere array with its count (as a list), the time uniform,
and the noise texture sample (red channel) as a function of the sample
coordinates. -/
structure Scene where
  boundingCenter : Vec3
  boundingRadius : ℝ
  spheres : List Sphere
  iTime : ℝ
  tex : ℝ → ℝ → ℝ

/-- sdCloud (fragment shader): minimum over the spheres of the signed
distance to each, starting from 1e6. -/
def sdCloud (sc : Scene) (p : Vec3) : ℝ :=
  sc.spheres.foldl (fun d s => min d (norm3 (p - s.center) - s.radius)) 1e6

/-- GLSL smoothstep(edge0, edge1, x). -/
def smoothstep (e0 e1 x : ℝ) : ℝ :=
  let t := max 0 (min 1 ((x - e0) / (e1 - e0)))
  t * t * (3 - 2 * t)

/-- cloudDensity (fragment shader): zero outside every sphere, otherwise
the noise texture sampled at the time-rotated XZ position scaled by 0.1,
shaped by smoothstep(0.3, 1.0, noiseVal). -/
def cloudDensity (sc : Scene) (p : Vec3) : ℝ :=
  if sdCloud sc p > 0 then 0
  else
    let angle := sc.iTime * 0.05
    let cosA := Real.cos angle
    let sinA := Real.sin angle
    let rx := p.x * cosA - p.z * sinA
    let rz := p.x * sinA + p.z * cosA
    let noiseVal := sc.tex (rx * 0.1) (rz * 0.1)
    smoothstep 0.3 1 noiseVal

/-- Background color vec4(0.6, 0.6, 0.6, 1.0) of the two early exits. -/
def bgColor : Vec4 := ⟨0.6, 0.6, 0.6, 1⟩

/-- fogColor (fragment shader). -/
def fogColor : Vec3 := ⟨1, 1, 1⟩

/-- lightColor (fragment shader). -/
def lightColor : Vec3 := ⟨1, 0.7, 0.5⟩

/-- lightDir (fragment shader). -/
def lightDir : Vec3 := normalize3 ⟨1, 1, -0.3⟩

/-- sigma_s (fragment shader). -/
def sigma_s : ℝ := 2

/-- sigma_a (fragment shader). -/
def sigma_a : ℝ := 0.2

/-- GLSL mix(a, b, t) componentwise. -/
def mix3 (a b : Vec3) (t : ℝ) : Vec3 :=
  ⟨a.x * (1 - t) + b.x * t, a.y * (1 - t) + b.y * t, a.z * (1 - t) + b.z * t⟩

/-- The shadow sub-march of the fragment shader: up to 16 steps of fixed
length 0.05 toward the light; stops on exiting the bounding sphere, and
once the shadow factor drops below 0.01. First argument after the scene
and bounding data is the remaining step count. -/
def shadowLoop (sc : Scene) (c : Vec3) (R : ℝ) : ℕ → Vec3 → ℝ → ℝ
  | 0, _, shadow => shadow
  | n + 1, lpos, shadow =>
    let lpos1 := lpos + (0.05 : ℝ) • lightDir
    let dCloud := norm3 (lpos1 - c) - R
    if dCloud > 0 then shadow
    else
      let ds := cloudDensity sc lpos1
      if ds > 0.02 then
        let shadow1 := shadow * Real.exp (-(ds * 0.3))
        if shadow1 < 0.01 then shadow1
        else shadowLoop sc c R n lpos1 shadow1
      else shadowLoop sc c R n lpos1 shadow

/-- The accumulators of the primary march loop. -/
structure MarchState where
  outColor : Vec3
  transmittance : ℝ

/-- Initial accumulators: outColor = vec3(0.0), transmittance = 1.0. -/
def marchInit : MarchState := ⟨⟨0, 0, 0⟩, 1⟩

/-- One iteration of the primary march loop at step index i: sample the
density at the current position; where it exceeds 0.001, run the shadow
sub-march, accumulate scattered light, and attenuate the transmittance by
the Beer-Lambert factor. The boolean reports the early break once the
transmittance falls below 0.001. -/
def marchBody (sc : Scene) (c : Vec3) (R : ℝ) (ro rd : Vec3) (tNear marchStep : ℝ)
    (i : ℕ) (st : MarchState) : MarchState × Bool :=
  let tCurrent := tNear + (i : ℝ) * marchStep
  let pos := ro + tCurrent • rd
  let dens := cloudDensity sc pos
  if dens > 0.001 then
    let shadow := shadowLoop sc c R 16 pos 1
    let scattering := shadow • mix3 fogColor lightColor 0.3
    let stepColor := (dens * sigma_s * st.transmittance * marchStep) • scattering
    let outColor1 := st.outColor + stepColor
    let absorb := dens * (sigma_a + sigma_s) * marchStep
    let tr1 := st.transmittance * Real.exp (-absorb)
    (⟨outColor1, tr1⟩, if tr1 < 0.001 then true else false)
  else (st, false)

/-- The primary march loop: runs marchBody for the remaining fuel starting
at step index i, stopping on the early-break flag. -/
def marchLoop (sc : Scene) (c : Vec3) (R : ℝ) (ro rd : Vec3) (tNear marchStep : ℝ) :
    ℕ → ℕ → MarchState → MarchState
  | 0, _, st => st
  | fuel + 1, i, st =>
    let r := marchBody sc c R ro rd tNear marchStep i st
    if r.2 then r.1
    else marchLoop sc c R ro rd tNear marchStep fuel (i + 1) r.1

/-- The discriminant det = b*b - c2 of the ray-sphere test, as a function
of the scene and the uv coordinate of the pixel. -/
def rayDet (sc : Scene) (uv : ℝ × ℝ) : ℝ :=
  let ro := sc.boundingCenter + (⟨0, 0, sc.boundingRadius * 2⟩ : Vec3)
  let rd := normalize3 ⟨uv.1 * sc.boundingRadius, uv.2 * sc.boundingRadius,
                        -(sc.boundingRadius * 2)⟩
  let oc := ro - sc.boundingCenter
  let b := dot3 oc rd
  let c2 := dot3 oc oc - sc.boundingRadius * sc.boundingRadius
  b * b - c2

/-- The near root t1 = -b - sqrt(det) of the ray-sphere test. -/
def rayT1 (sc : Scene) (uv : ℝ × ℝ) : ℝ :=
  let ro := sc.boundingCenter + (⟨0, 0, sc.boundingRadius * 2⟩ : Vec3)
  let rd := normalize3 ⟨uv.1 * sc.boundingRadius, uv.2 * sc.boundingRadius,
                        -(sc.boundingRadius * 2)⟩
  let oc := ro - sc.boundingCenter
  let b := dot3 oc rd;
  -b - Real.sqrt (rayDet sc uv)

/-- The far root t2 = -b + sqrt(det) of the ray-sphere test. -/
def rayT2 (sc : Scene) (uv : ℝ × ℝ) : ℝ :=
  let ro := sc.boundingCenter + (⟨0, 0, sc.boundingRadius * 2⟩ : Vec3)
  let rd := normalize3 ⟨uv.1 * sc.boundingRadius, uv.2 * sc.boundingRadius,
                        -(sc.boundingRadius * 2)⟩
  let oc := ro - sc.boundingCenter
  let b := dot3 oc rd;
  -b + Real.sqrt (rayDet sc uv)

/-- The color produced once the marching loop is entered: the 64-step march
from tNear = max(t1, 0) to tFar = t2, composited over the gray background
scaled by the remaining transmittance. -/
def marchResult (sc : Scene) (uv : ℝ × ℝ) : Vec4 :=
  let ro := sc.boundingCenter + (⟨0, 0, sc.boundingRadius * 2⟩ : Vec3)
  let rd := normalize3 ⟨uv.1 * sc.boundingRadius, uv.2 * sc.boundingRadius,
                        -(sc.boundingRadius * 2)⟩
  let tNear := max (rayT1 sc uv) 0
  let tFar := rayT2 sc uv
  let marchStep := (tFar - tNear) / 64
  let final := marchLoop sc sc.boundingCenter sc.boundingRadius ro rd tNear marchStep
                 64 0 marchInit
  let finalColor := final.outColor + final.transmittance • (⟨0.6, 0.6, 0.6⟩ : Vec3)
  ⟨finalColor.x, finalColor.y, finalColor.z, 1⟩

/-- The body of main in the fragment shader, from the uv coordinate in
[-1,1]^2 on: direct transcription of the early-exit tests and the marching
loop. -/
def shadePixel (sc : Scene) (uv : ℝ × ℝ) : Vec4 :=
  let ro := sc.boundingCenter + (⟨0, 0, sc.boundingRadius * 2⟩ : Vec3)
  let rd := normalize3 ⟨uv.1 * sc.boundingRadius, uv.2 * sc.boundingRadius,
                        -(sc.boundingRadius * 2)⟩
  let c := sc.boundingCenter
  let R := sc.boundingRadius
  let oc := ro - c
  let b := dot3 oc rd
  let c2 := dot3 oc oc - R * R
  let det := b * b - c2
  if det < 0 then bgColor
  else
    let sqrtDet := Real.sqrt det
    let t1 := -b - sqrtDet
    let t2 := -b + sqrtDet
    if t2 < 0 then bgColor
    else
      let tNear := max t1 0
      let tFar := t2
      let marchStep := (tFar - tNear) / 64
      let final := marchLoop sc c R ro rd tNear marchStep 64 0 marchInit
      let finalColor := final.outColor + final.transmittance • (⟨0.6, 0.6, 0.6⟩ : Vec3)
      ⟨finalColor.x, finalColor.y, finalColor.z, 1⟩

/-- main (fragment shader): uv = vTexCoord * 2.0 - 1.0, then shadePixel. -/
def shadeFragment (sc : Scene) (vTexCoord : ℝ × ℝ) : Vec4 :=
  shadePixel sc (vTexCoord.1 * 2 - 1, vTexCoord.2 * 2 - 1)

/-! Helper lemmas on the vector components. -/

@[simp] theorem vadd_x (a b : Vec3) : (a + b).x = a.x + b.x := rfl

@[simp] theorem vadd_y (a b : Vec3) : (a + b).y = a.y + b.y := rfl

@[simp] theorem vadd_z (a b : Vec3) : (a + b).z = a.z + b.z := rfl

@[simp] theorem vsub_x (a b : Vec3) : (a - b).x = a.x - b.x := rfl

@[simp] theorem vsub_y (a b : Vec3) : (a - b).y = a.y - b.y := rfl

@[simp] theorem vsub_z (a b : Vec3) : (a - b).z = a.z - b.z := rfl

@[simp] theorem vsmul_x (t : ℝ) (v : Vec3) : (t • v).x = t * v.x := rfl

@[simp] theorem vsmul_y (t : ℝ) (v : Vec3) : (t • v).y = t * v.y := rfl

@[simp] theorem vsmul_z (t : ℝ) (v : Vec3) : (t • v).z = t * v.z := rfl

/-- Componentwise equality of vectors. -/
theorem vec3_eq (a b : Vec3) (hx : a.x = b.x) (hy : a.y = b.y) (hz : a.z = b.z) :
    a = b := by
  cases a
  cases b
  simp_all

/-- Claim C7: for every point strictly outside every cloud sphere
(sdCloud p > 0), and every time value and noise texture content,
cloudDensity p equals 0. -/
theorem c7_density_zero_outside (sc : Scene) (p : Vec3) (h : sdCloud sc p > 0) :
    cloudDensity sc p = 0 := by
  unfold cloudDensity
  exact if_pos h

/-- Witness for C7: a one-sphere scene and a point at distance 2 outside it. -/
theorem c7_witness :
    sdCloud ⟨⟨0, 0, 0⟩, 1, [⟨⟨0, 0, 0⟩, 1⟩], 0, fun _ _ => 0⟩ ⟨3, 0, 0⟩ > 0 ∧
    cloudDensity ⟨⟨0, 0, 0⟩, 1, [⟨⟨0, 0, 0⟩, 1⟩], 0, fun _ _ => 0⟩ ⟨3, 0, 0⟩ = 0 := by
  have hsd : sdCloud ⟨⟨0, 0, 0⟩, 1, [⟨⟨0, 0, 0⟩, 1⟩], 0, fun _ _ => 0⟩ ⟨3, 0, 0⟩ > 0 := by
    unfold sdCloud norm3
    simp only [List.foldl_cons, List.foldl_nil, vsub_x, vsub_y, vsub_z]
    have h9 : ((3:ℝ) - 0) ^ 2 + (0 - 0) ^ 2 + (0 - 0) ^ 2 = 3 ^ 2 := by norm_num
    rw [h9, Real.sqrt_sq (by norm_num : (0:ℝ) ≤ 3)]
    norm_num
  exact ⟨hsd, c7_density_zero_outside _ _ hsd⟩

/-- Claim C9: Noise::generatePerlinNoiseTexture is a deterministic function
of (width, height, seed): its output grid does not depend on the incoming
process-global state (permutation table and rand state), because the
function reseeds the C generator and rebuilds the whole table. Two calls
with identical arguments therefore produce identical grids. -/
theorem c9_texture_deterministic (randFn : ℕ → ℕ → ℕ) (g g2 : NoiseGlobals)
    (width height seed : ℕ) :
    (generatePerlinNoiseTexture randFn g width height seed).2
      = (generatePerlinNoiseTexture randFn g2 width height seed).2 := rfl

/-- Counterexample for C4: computeBoundingSphere on the empty list does not
fail; it returns the concrete sphere with center (0,0,0) and radius 0
derived from the untouched sentinel extrema. -/
theorem c4_counterexample : computeBoundingSphere [] = ⟨⟨0, 0, 0⟩, 0⟩ := by
  unfold computeBoundingSphere
  simp only [List.foldl_nil]
  congr 1
  apply vec3_eq <;>
    simp only [vadd_x, vadd_y, vadd_z, vsmul_x, vsmul_y, vsmul_z] <;> norm_num

/-- Claim C4 amended: on an empty sphere set, computeBoundingSphere returns
the sphere built from the unmodified sentinel extrema (plus and minus 1e9):
its center is the midpoint of the sentinels and its radius is the fold of
the empty list, 0. -/
theorem c4_amended_empty_input (l : List Sphere) (h : l = []) :
    computeBoundingSphere l
      = ⟨(0.5 : ℝ) • ((⟨1e9, 1e9, 1e9⟩ : Vec3) + (⟨-1e9, -1e9, -1e9⟩ : Vec3)), 0⟩ := by
  subst h
  unfold computeBoundingSphere
  simp only [List.foldl_nil]

/-- Witness for C4 amended: the empty list instance. -/
theorem c4_witness :
    ([] : List Sphere) = [] ∧
    computeBoundingSphere []
      = ⟨(0.5 : ℝ) • ((⟨1e9, 1e9, 1e9⟩ : Vec3) + (⟨-1e9, -1e9, -1e9⟩ : Vec3)), 0⟩ :=
  ⟨rfl, c4_amended_empty_input [] rfl⟩

/-- Counterexample for C5: with count N = 0 the generator does not return an
empty set; the unconditional base sphere is still emitted, so the result
has length 1. -/
theorem c5_counterexample :
    (generateCloudSpheres 10 0 0.1 0.2 2 5 0.3 0 (fun _ => ⟨0, 0, 0, 0⟩)).length = 1 := by
  unfold generateCloudSpheres
  simp

/-- Claim C5 amended: for a count N at most 0, generateCloudSpheres never
returns an empty sphere set: at N = 0 the unconditionally pushed base
sphere makes the result the singleton list, and for N below 0 the
spheres.reserve(N) call fails with length_error before any sphere is
pushed, so no sphere set is returned at all. -/
theorem c5_nonpositive_count_behavior (L : ℝ) (N : ℤ)
    (deltaRat sigmaRat alpha beta baseRadRat u0 : ℝ) (draws : ℕ → Draw)
    (hN : N ≤ 0) :
    generateCloudSpheresChecked L N deltaRat sigmaRat alpha beta baseRadRat u0 draws
      = if N = 0 then Except.ok [baseSphere L (L * deltaRat) baseRadRat u0]
        else Except.error VecError.lengthError := by
  unfold generateCloudSpheresChecked
  by_cases h0 : N = 0
  · subst h0
    rw [if_neg (by omega), if_pos rfl]
    unfold generateCloudSpheres
    have ht : ((0 : ℤ) - 1).toNat = 0 := Int.toNat_of_nonpos (by omega)
    simp [ht]
  · have hneg : N < 0 := lt_of_le_of_ne hN h0
    rw [if_pos hneg, if_neg h0]

/-- Witness for C5 amended, exercising both sides: N = -1 reaches the
reserve failure and N = 0 the singleton base-sphere list. -/
theorem c5_witness :
    ((-1 : ℤ) ≤ 0 ∧
      generateCloudSpheresChecked 10 (-1) 0.1 0.2 2 5 0.3 0 (fun _ => ⟨0, 0, 0, 0⟩)
        = Except.error VecError.lengthError) ∧
    ((0 : ℤ) ≤ 0 ∧
      generateCloudSpheresChecked 10 0 0.1 0.2 2 5 0.3 0 (fun _ => ⟨0, 0, 0, 0⟩)
        = Except.ok [baseSphere 10 (10 * 0.1) 0.3 0]) := by
  constructor
  · refine ⟨by norm_num, ?_⟩
    have h := c5_nonpositive_count_behavior 10 (-1) 0.1 0.2 2 5 0.3 0
      (fun _ => ⟨0, 0, 0, 0⟩) (by norm_num)
    simpa using h
  · refine ⟨le_refl 0, ?_⟩
    have h := c5_nonpositive_count_behavior 10 0 0.1 0.2 2 5 0.3 0
      (fun _ => ⟨0, 0, 0, 0⟩) (le_refl 0)
    simpa using h

/-- A fold whose step never decreases the accumulator never drops below its
initial value. -/
theorem foldl_ge_init {α : Type} (step : ℝ → α → ℝ) (h1 : ∀ r x, r ≤ step r x)
    (l : List α) (a : ℝ) : a ≤ l.foldl step a := by
  induction l generalizing a with
  | nil => simp
  | cons y t ih => exact le_trans (h1 a y) (ih (step a y))

/-- A fold whose step never decreases the accumulator and always reaches at
least f of its element dominates f at every list member. -/
theorem foldl_ge_mem {α : Type} (step : ℝ → α → ℝ) (f : α → ℝ)
    (h1 : ∀ r x, r ≤ step r x) (h2 : ∀ r x, f x ≤ step r x) (l : List α) :
    ∀ (a : ℝ) (s : α), s ∈ l → f s ≤ l.foldl step a := by
  induction l with
  | nil => intro a s hs; cases hs
  | cons y t ih =>
    intro a s hs
    simp only [List.foldl_cons]
    rcases List.mem_cons.mp hs with h | h
    · subst h
      exact le_trans (h2 a s) (foldl_ge_init step h1 t (step a s))
    · exact ih _ s h

/-- The radius fold of computeBoundingSphere dominates the
distance-plus-radius of every sphere, for any candidate center. -/
theorem bounding_radius_dominates (spheres : List Sphere) (C : Vec3) (s : Sphere)
    (hs : s ∈ spheres) :
    norm3 (s.center - C) + s.radius
      ≤ spheres.foldl (fun r x => if norm3 (x.center - C) + x.radius > r
                                  then norm3 (x.center - C) + x.radius else r) 0 := by
  have h1 : ∀ (r : ℝ) (x : Sphere),
      r ≤ (if norm3 (x.center - C) + x.radius > r
           then norm3 (x.center - C) + x.radius else r) := by
    intro r x
    split
    · linarith
    · exact le_refl r
  have h2 : ∀ (r : ℝ) (x : Sphere),
      norm3 (x.center - C) + x.radius
        ≤ (if norm3 (x.center - C) + x.radius > r
           then norm3 (x.center - C) + x.radius else r) := by
    intro r x
    split
    · exact le_refl _
    · linarith
  exact foldl_ge_mem _ _ h1 h2 spheres 0 s hs

/-- Claim C1: every input sphere is fully contained in the sphere returned
by computeBoundingSphere: its center-to-center distance plus its radius is
at most the bounding radius (here proved exactly, with no epsilon). -/
theorem c1_bounding_contains (spheres : List Sphere) (s : Sphere) (hs : s ∈ spheres) :
    norm3 (s.center - (computeBoundingSphere spheres).center) + s.radius
      ≤ (computeBoundingSphere spheres).radius := by
  simp only [computeBoundingSphere]
  exact bounding_radius_dominates spheres _ s hs

/-- Witness for C1: a singleton sphere set. -/
theorem c1_witness :
    (⟨⟨0, 0, 0⟩, 1⟩ : Sphere) ∈ [(⟨⟨0, 0, 0⟩, 1⟩ : Sphere)] ∧
    norm3 ((⟨0, 0, 0⟩ : Vec3) - (computeBoundingSphere [⟨⟨0, 0, 0⟩, 1⟩]).center) + 1
      ≤ (computeBoundingSphere [⟨⟨0, 0, 0⟩, 1⟩]).radius :=
  ⟨List.mem_singleton.mpr rfl,
   c1_bounding_contains [⟨⟨0, 0, 0⟩, 1⟩] ⟨⟨0, 0, 0⟩, 1⟩ (List.mem_singleton.mpr rfl)⟩

/-- The clamped x draw is nonnegative. -/
theorem drawX_nonneg (L : ℝ) (d : Draw) : 0 ≤ drawX L d := le_max_left 0 _

/-- The clamped x draw stays within the box. -/
theorem drawX_le (L : ℝ) (d : Draw) (hL : 0 ≤ L) : drawX L d ≤ L :=
  max_le hL (min_le_left L d.gx)

/-- The clamped z draw is nonnegative. -/
theorem drawZ_nonneg (L : ℝ) (d : Draw) : 0 ≤ drawZ L d := le_max_left 0 _

/-- The clamped z draw stays within the box. -/
theorem drawZ_le (L : ℝ) (d : Draw) (hL : 0 ≤ L) : drawZ L d ≤ L :=
  max_le hL (min_le_left L d.gz)

/-- Under the clamped draws of the generator the computed max_radius is
nonnegative. -/
theorem cloudMaxRadius_nonneg (L delta : ℝ) (d : Draw) (hL : 0 ≤ L)
    (hyb : drawYBase delta d ≤ L) : 0 ≤ cloudMaxRadius L delta d := by
  have hx0 := drawX_nonneg L d
  have hxL := drawX_le L d hL
  have hz0 := drawZ_nonneg L d
  have hzL := drawZ_le L d hL
  unfold cloudMaxRadius cloudDMax
  refine le_min (le_min (le_min (le_min hx0 (by linarith)) (le_min hz0 (by linarith))) ?_) ?_
  · nlinarith
  · nlinarith

/-- The computed min_radius is positive for a positive box size. -/
theorem cloudMinRadius_pos (L baseRadius : ℝ) (hL : 0 < L) :
    0 < cloudMinRadius L baseRadius :=
  lt_of_lt_of_le (by nlinarith) (le_max_left (0.05 * L) (baseRadius * 0.2))

/-- The base sphere radius is capped by L times the base radius ratio. -/
theorem baseSphere_radius_le (L delta baseRadRat u0 : ℝ) :
    (baseSphere L delta baseRadRat u0).radius ≤ L * baseRadRat := by
  simp only [baseSphere]
  exact min_le_left _ _

/-- Claim C2 amended: when the computed maxRadius is below minRadius the
code applies no clamp; the radius is minRadius + br * (maxRadius -
minRadius), which then lies between maxRadius and minRadius. Since the
clamped draws keep maxRadius nonnegative, the radius is nonnegative - no
negative radius is produced - but it is not set to minRadius. -/
theorem c2_amended_radius_bounds (L delta baseRadius : ℝ) (d : Draw)
    (hL : 0 ≤ L) (hyb : drawYBase delta d ≤ L) (hbr0 : 0 ≤ d.br) (hbr1 : d.br ≤ 1) :
    0 ≤ cloudRadius L delta baseRadius d ∧
    (cloudMaxRadius L delta d < cloudMinRadius L baseRadius →
      cloudMaxRadius L delta d ≤ cloudRadius L delta baseRadius d ∧
      cloudRadius L delta baseRadius d ≤ cloudMinRadius L baseRadius) := by
  have hmax := cloudMaxRadius_nonneg L delta d hL hyb
  have hmin : 0 ≤ cloudMinRadius L baseRadius :=
    le_trans (by nlinarith) (le_max_left (0.05 * L) (baseRadius * 0.2))
  unfold cloudRadius
  constructor
  · nlinarith [mul_nonneg hbr0 hmax, mul_nonneg (sub_nonneg.mpr hbr1) hmin]
  · intro h
    constructor
    · nlinarith [mul_nonneg (sub_nonneg.mpr hbr1)
        (sub_nonneg.mpr (le_of_lt h))]
    · nlinarith [mul_nonneg hbr0 (sub_nonneg.mpr (le_of_lt h))]

/-- Witness for C2 amended: the wall-adjacent draw with L = 10. -/
theorem c2_witness :
    drawYBase 1 ⟨0, 5, 0, 1/2⟩ ≤ 10 ∧ 0 ≤ cloudRadius 10 1 3 ⟨0, 5, 0, 1/2⟩ :=
  ⟨by norm_num [drawYBase],
   (c2_amended_radius_bounds 10 1 3 ⟨0, 5, 0, 1/2⟩ (by norm_num)
     (by norm_num [drawYBase]) (by norm_num) (by norm_num)).1⟩

/-- Counterexample for C2: for the generated sphere with position draws at
the x wall (gx = 0), the computed maxRadius (0) is below minRadius (0.6),
yet the radius is 0.3, not the claimed fallback minRadius; the
configuration is exactly what generateCloudSpheres produces from these
draws. -/
theorem c2_counterexample :
    cloudMaxRadius 10 1 ⟨0, 5, 0, 1/2⟩ < cloudMinRadius 10 3 ∧
    cloudRadius 10 1 3 ⟨0, 5, 0, 1/2⟩ ≠ cloudMinRadius 10 3 ∧
    (generateCloudSpheres 10 2 0.1 0.2 2 5 0.3 0 (fun _ => ⟨0, 5, 0, 1/2⟩)).drop 1
      = [mkCloudSphere 10 (10 * 0.1) ((baseSphere 10 (10 * 0.1) 0.3 0).radius)
          ⟨0, 5, 0, 1/2⟩] := by
  refine ⟨?_, ?_, ?_⟩
  · norm_num [cloudMaxRadius, cloudMinRadius, cloudDMax, drawX, drawZ, drawYBase,
      min_def, max_def]
  · norm_num [cloudRadius, cloudMaxRadius, cloudMinRadius, cloudDMax, drawX, drawZ,
      drawYBase, min_def, max_def]
  · simp [generateCloudSpheres]

/-- Counterexample for C3: with default parameters and L = 10, a draw at
the x wall produces a non-base sphere of radius 0.3, while the claimed
lower bound max(0.05*L, baseRadius*0.2) is 0.6 - a shortfall of 0.3, far
beyond any small epsilon. -/
theorem c3_counterexample :
    ((generateCloudSpheres 10 2 0.1 0.2 2 5 0.3 0
        (fun _ => ⟨0, 5, 0, 1/2⟩)).drop 1).map Sphere.radius = [0.3] ∧
    (baseSphere 10 (10 * 0.1) 0.3 0).radius = 3 ∧
    (0.3 : ℝ) < max (0.05 * 10) (3 * 0.2) - 0.01 := by
  refine ⟨?_, ?_, ?_⟩
  · simp only [generateCloudSpheres, List.drop_succ_cons, List.drop_zero, List.map_map,
      List.range_succ, List.range_zero, List.nil_append, List.map_cons, List.map_nil]
    norm_num [mkCloudSphere, cloudRadius, cloudMaxRadius, cloudMinRadius, cloudDMax,
      drawX, drawZ, drawYBase, baseSphere, min_def, max_def]
    simp [List.range_succ, Function.comp]
  · norm_num [baseSphere, min_def, max_def]
  · norm_num [max_def]

/-- Claim C3 amended: with default-style parameters and L greater than 0,
every non-base sphere has 0 < radius and radius at most 0.5 * L; the
claimed lower bound max(0.05*L, baseRadius*0.2) holds whenever it does not
exceed the computed maxRadius of the sphere, but for degenerate draws
(maxRadius below minRadius, as at a wall) the radius falls below it. -/
theorem c3_amended_radius_bounds (L : ℝ) (N : ℤ) (sigmaRat alpha beta u0 : ℝ)
    (draws : ℕ → Draw) (s : Sphere) (hL : 0 < L)
    (hd : ∀ i, 0 ≤ (draws i).u ∧ (draws i).u ≤ 1 ∧ 0 < (draws i).br ∧ (draws i).br < 1)
    (hs : s ∈ (generateCloudSpheres L N 0.1 sigmaRat alpha beta 0.3 u0 draws).drop 1) :
    0 < s.radius ∧ s.radius ≤ 0.5 * L ∧
    (∃ i, s = mkCloudSphere L (L * 0.1) (baseSphere L (L * 0.1) 0.3 u0).radius (draws i) ∧
      (cloudMinRadius L (baseSphere L (L * 0.1) 0.3 u0).radius
          ≤ cloudMaxRadius L (L * 0.1) (draws i) →
        cloudMinRadius L (baseSphere L (L * 0.1) 0.3 u0).radius ≤ s.radius)) := by
  simp only [generateCloudSpheres, List.drop_succ_cons, List.drop_zero,
    List.mem_map, List.mem_range] at hs
  obtain ⟨i, _, hi⟩ := hs
  subst hi
  obtain ⟨hu0, hu1, hb0, hb1⟩ := hd i
  have hyb : drawYBase (L * 0.1) (draws i) ≤ L := by
    unfold drawYBase
    nlinarith
  have hM : 0 ≤ cloudMaxRadius L (L * 0.1) (draws i) :=
    cloudMaxRadius_nonneg L (L * 0.1) (draws i) (le_of_lt hL) hyb
  have hMhi : cloudMaxRadius L (L * 0.1) (draws i) ≤ 0.5 * L :=
    min_le_right _ _
  have hbase : (baseSphere L (L * 0.1) 0.3 u0).radius ≤ L * 0.3 :=
    baseSphere_radius_le L (L * 0.1) 0.3 u0
  have hm_low : 0.05 * L ≤ cloudMinRadius L (baseSphere L (L * 0.1) 0.3 u0).radius :=
    le_max_left _ _
  have hm_hi : cloudMinRadius L (baseSphere L (L * 0.1) 0.3 u0).radius ≤ 0.06 * L :=
    max_le (by nlinarith) (by nlinarith)
  have hrad : (mkCloudSphere L (L * 0.1) (baseSphere L (L * 0.1) 0.3 u0).radius
      (draws i)).radius
      = cloudRadius L (L * 0.1) (baseSphere L (L * 0.1) 0.3 u0).radius (draws i) := rfl
  rw [hrad]
  unfold cloudRadius
  refine ⟨?_, ?_, i, rfl, ?_⟩
  · nlinarith [mul_nonneg (le_of_lt hb0) hM]
  · rcases le_or_lt (cloudMinRadius L (baseSphere L (L * 0.1) 0.3 u0).radius)
      (cloudMaxRadius L (L * 0.1) (draws i)) with hc | hc
    · nlinarith [mul_nonneg (sub_nonneg.mpr (le_of_lt hb1)) (sub_nonneg.mpr hc)]
    · nlinarith [mul_nonneg (le_of_lt hb0) (sub_nonneg.mpr (le_of_lt hc))]
  · intro hc
    nlinarith [mul_nonneg (le_of_lt hb0) (sub_nonneg.mpr hc)]

/-- Witness for C3 amended: a central, non-degenerate draw with L = 10. -/
theorem c3_witness :
    mkCloudSphere 10 (10 * 0.1) ((baseSphere 10 (10 * 0.1) 0.3 0).radius) ⟨5, 5, 0, 1/2⟩
      ∈ (generateCloudSpheres 10 2 0.1 0.2 2 5 0.3 0 (fun _ => ⟨5, 5, 0, 1/2⟩)).drop 1 ∧
    0 < (mkCloudSphere 10 (10 * 0.1) ((baseSphere 10 (10 * 0.1) 0.3 0).radius)
          ⟨5, 5, 0, 1/2⟩).radius ∧
    (mkCloudSphere 10 (10 * 0.1) ((baseSphere 10 (10 * 0.1) 0.3 0).radius)
          ⟨5, 5, 0, 1/2⟩).radius ≤ 0.5 * 10 := by
  have hmem : mkCloudSphere 10 (10 * 0.1) ((baseSphere 10 (10 * 0.1) 0.3 0).radius)
      ⟨5, 5, 0, 1/2⟩
      ∈ (generateCloudSpheres 10 2 0.1 0.2 2 5 0.3 0 (fun _ => ⟨5, 5, 0, 1/2⟩)).drop 1 := by
    simp [generateCloudSpheres]
  have h := c3_amended_radius_bounds 10 2 0.2 2 5 0 (fun _ => ⟨5, 5, 0, 1/2⟩) _
    (by norm_num) (fun i => by norm_num) hmem
  exact ⟨hmem, h.1, h.2.1⟩

/-- A swap of two in-range positions preserves the bound on the first 256
entries of the permutation. -/
theorem swapFn_bound {f : ℕ → ℕ} (hf : ∀ k, k < 256 → f k ≤ 255) (i j : ℕ)
    (hi : i < 256) (hj : j < 256) : ∀ k, k < 256 → swapFn f i j k ≤ 255 := by
  intro k hk
  unfold swapFn
  split
  · exact hf j hj
  · split
    · exact hf i hi
    · exact hf k hk

/-- The Fisher-Yates loop started at any index up to 255 preserves the
bound on the first 256 entries. -/
theorem fyLoop_bound (randFn : ℕ → ℕ → ℕ) :
    ∀ (i : ℕ), i ≤ 255 → ∀ (st : CRand) (perm : ℕ → ℕ),
      (∀ k, k < 256 → perm k ≤ 255) →
      ∀ k, k < 256 → (fyLoop randFn i st perm).2 k ≤ 255 := by
  intro i
  induction i with
  | zero =>
    intro _ st perm hperm k hk
    exact hperm k hk
  | succ n ih =>
    intro hi st perm hperm k hk
    have hj : (randNext randFn st).1 % (n + 2) < 256 := by
      have := Nat.mod_lt (randNext randFn st).1 (show 0 < n + 2 by omega)
      omega
    exact ih (by omega) _ _
      (swapFn_bound hperm (n + 1) _ (by omega) hj) k hk

/-- Every entry of the duplicated 512-entry table built by initPermutation
at an index below 512 is at most 255. -/
theorem initPermutation_entry_le (randFn : ℕ → ℕ → ℕ) (g : NoiseGlobals) (seed : ℕ) :
    ∀ k, k < 512 → (initPermutation randFn g seed).p k ≤ 255 := by
  intro k hk
  unfold initPermutation
  have hbase : ∀ m, m < 256 → (fun i => i) m ≤ 255 := by
    intro m hm
    show m ≤ 255
    omega
  by_cases h : k < 256
  · simpa [h] using fyLoop_bound randFn 255 (by omega) (srandFn seed) _ hbase k h
  · simpa [h] using fyLoop_bound randFn 255 (by omega) (srandFn seed) _ hbase (k - 256)
      (by omega)

/-- Claim C10: after initPermutation, every index with which perlin reads
the 512-entry table - p[X], p[X+1], p[A], p[A+1], p[B], p[B+1] - lies
within [0, 511]: the cell coordinates are masked into [0, 255] and the
duplicated table entries are themselves at most 255. -/
theorem c10_perlin_indices_in_bounds (randFn : ℕ → ℕ → ℕ) (g : NoiseGlobals)
    (seed : ℕ) (x y : ℝ) (i : ℕ)
    (hi : i ∈ perlinIndices (initPermutation randFn g seed).p x y) : i ≤ 511 := by
  have hX : ((⌊x⌋ : ℤ) % 256).toNat ≤ 255 := by
    have h1 : (⌊x⌋ : ℤ) % 256 < 256 := Int.emod_lt_of_pos _ (by norm_num)
    omega
  have hY : ((⌊y⌋ : ℤ) % 256).toNat ≤ 255 := by
    have h1 : (⌊y⌋ : ℤ) % 256 < 256 := Int.emod_lt_of_pos _ (by norm_num)
    omega
  have htabX := initPermutation_entry_le randFn g seed ((⌊x⌋ : ℤ) % 256).toNat
    (by omega)
  have htabX1 := initPermutation_entry_le randFn g seed (((⌊x⌋ : ℤ) % 256).toNat + 1)
    (by omega)
  simp only [perlinIndices, List.mem_cons, List.not_mem_nil, or_false] at hi
  rcases hi with rfl | rfl | rfl | rfl | rfl | rfl <;> omega

/-- Witness for C10: the first index X at the origin sample of a freshly
initialized table. -/
theorem c10_witness :
    0 ∈ perlinIndices (initPermutation (fun _ _ => 0) ⟨fun _ => 0, ⟨0, 0⟩⟩ 0).p 0 0 ∧
    (0 : ℕ) ≤ 511 := by
  have hmem : 0 ∈ perlinIndices (initPermutation (fun _ _ => 0) ⟨fun _ => 0, ⟨0, 0⟩⟩ 0).p 0 0 := by
    simp [perlinIndices]
  exact ⟨hmem, c10_perlin_indices_in_bounds (fun _ _ => 0) ⟨fun _ => 0, ⟨0, 0⟩⟩ 0 0 0 0 hmem⟩

/-- The smoothstep shaping function is nonnegative. -/
theorem smoothstep_nonneg (e0 e1 x : ℝ) : 0 ≤ smoothstep e0 e1 x := by
  unfold smoothstep
  have h0 : (0 : ℝ) ≤ max 0 (min 1 ((x - e0) / (e1 - e0))) := le_max_left _ _
  have h1 : max 0 (min 1 ((x - e0) / (e1 - e0))) ≤ 1 :=
    max_le (by norm_num) (min_le_left _ _)
  nlinarith

/-- The cloud density is nonnegative at every point, for every scene. -/
theorem cloudDensity_nonneg (sc : Scene) (p : Vec3) : 0 ≤ cloudDensity sc p := by
  unfold cloudDensity
  split
  · exact le_refl 0
  · exact smoothstep_nonneg _ _ _

/-- Claim C8: the primary march starts with transmittance 1, the density is
always nonnegative, and one marching step never increases the
transmittance when the step length is nonnegative (the update multiplies
by exp(-density * (sigma_a + sigma_s) * stepLength) which is at most 1). -/
theorem c8_transmittance_monotone :
    marchInit.transmittance = 1 ∧
    (∀ (sc : Scene) (p : Vec3), 0 ≤ cloudDensity sc p) ∧
    (∀ (sc : Scene) (c : Vec3) (R : ℝ) (ro rd : Vec3) (tNear marchStep : ℝ) (i : ℕ)
       (st : MarchState), 0 ≤ marchStep → 0 ≤ st.transmittance →
       (marchBody sc c R ro rd tNear marchStep i st).1.transmittance
         ≤ st.transmittance) := by
  refine ⟨rfl, cloudDensity_nonneg, ?_⟩
  intro sc c R ro rd tNear marchStep i st hstep htr
  simp only [marchBody]
  split
  · next hdens =>
    dsimp only
    have habs : 0 ≤ cloudDensity sc (ro + (tNear + (i : ℝ) * marchStep) • rd)
        * (sigma_a + sigma_s) * marchStep := by
      have hd : (0 : ℝ) ≤ cloudDensity sc (ro + (tNear + (i : ℝ) * marchStep) • rd) :=
        cloudDensity_nonneg _ _
      have hss : (0 : ℝ) ≤ sigma_a + sigma_s := by
        unfold sigma_a sigma_s
        norm_num
      positivity
    have hexp : Real.exp (-(cloudDensity sc (ro + (tNear + (i : ℝ) * marchStep) • rd)
        * (sigma_a + sigma_s) * marchStep)) ≤ 1 := by
      rw [Real.exp_le_one_iff]
      linarith
    calc st.transmittance * Real.exp (-(cloudDensity sc (ro + (tNear + (i : ℝ) * marchStep) • rd)
          * (sigma_a + sigma_s) * marchStep))
        ≤ st.transmittance * 1 := by
          exact mul_le_mul_of_nonneg_left hexp htr
      _ = st.transmittance := mul_one _
  · exact le_refl _

/-- Witness for C8: one marching step of length 0 in an empty scene. -/
theorem c8_witness :
    (0 : ℝ) ≤ 0 ∧ 0 ≤ marchInit.transmittance ∧
    (marchBody ⟨⟨0, 0, 0⟩, 1, [], 0, fun _ _ => 0⟩ ⟨0, 0, 0⟩ 1 ⟨0, 0, 0⟩ ⟨0, 0, 0⟩ 0 0 0
        marchInit).1.transmittance ≤ marchInit.transmittance :=
  ⟨le_refl 0, by norm_num [marchInit],
   c8_transmittance_monotone.2.2 ⟨⟨0, 0, 0⟩, 1, [], 0, fun _ _ => 0⟩ ⟨0, 0, 0⟩ 1
     ⟨0, 0, 0⟩ ⟨0, 0, 0⟩ 0 0 0 marchInit (le_refl 0) (by norm_num [marchInit])⟩

/-- Claim C6: the fragment shader outputs exactly the background color
(0.6, 0.6, 0.6, 1.0) when the ray-sphere discriminant is negative or the
far intersection t2 is negative, and in every other case it proceeds to
the marching loop - these two tests are the only early exits. -/
theorem c6_early_exit_background (sc : Scene) (uv : ℝ × ℝ) :
    (rayDet sc uv < 0 ∨ rayT2 sc uv < 0 → shadePixel sc uv = bgColor) ∧
    (0 ≤ rayDet sc uv → 0 ≤ rayT2 sc uv → shadePixel sc uv = marchResult sc uv) := by
  have e1 : shadePixel sc uv
      = if rayDet sc uv < 0 then bgColor
        else if rayT2 sc uv < 0 then bgColor
        else marchResult sc uv := rfl
  constructor
  · intro h
    rw [e1]
    rcases h with h | h
    · rw [if_pos h]
    · by_cases h0 : rayDet sc uv < 0
      · rw [if_pos h0]
      · rw [if_neg h0, if_pos h]
  · intro h1 h2
    rw [e1, if_neg (not_lt.mpr h1), if_neg (not_lt.mpr h2)]

/-- Witness for C6: with a unit bounding sphere at the origin and the
off-center pixel uv = (2, 0), the discriminant is -1, so the output is the
background color. -/
theorem c6_witness :
    (rayDet ⟨⟨0, 0, 0⟩, 1, [], 0, fun _ _ => 0⟩ (2, 0) < 0 ∨
     rayT2 ⟨⟨0, 0, 0⟩, 1, [], 0, fun _ _ => 0⟩ (2, 0) < 0) ∧
    shadePixel ⟨⟨0, 0, 0⟩, 1, [], 0, fun _ _ => 0⟩ (2, 0) = bgColor := by
  have hdet : rayDet ⟨⟨0, 0, 0⟩, 1, [], 0, fun _ _ => 0⟩ (2, 0) < 0 := by
    simp only [rayDet, normalize3, norm3, dot3, vadd_x, vadd_y, vadd_z, vsub_x,
      vsub_y, vsub_z, vsmul_x, vsmul_y, vsmul_z]
    norm_num
    have h8 : Real.sqrt 8 * Real.sqrt 8 = 8 := Real.mul_self_sqrt (by norm_num)
    have hpos : (0 : ℝ) < Real.sqrt 8 := Real.sqrt_pos.mpr (by norm_num)
    field_simp
    nlinarith
  exact ⟨Or.inl hdet,
    (c6_early_exit_background ⟨⟨0, 0, 0⟩, 1, [], 0, fun _ _ => 0⟩ (2, 0)).1 (Or.inl hdet)⟩

end CloudRM
